import Mathlib

/-!
Verification of the FDC3 desktop-agent proxy core
(`DefaultIntentSupport.ts` intent router and the `BroadcastHandler`
broadcast router) against its natural-language specification.

The TypeScript is shallowly embedded:

* the asynchronous messaging gateway is modelled as an environment
  (`GatewayEnv` / the inbound message stream); `exchange`, `waitFor` and
  `createMeta` read from it and, where ordering matters, append to an
  explicit effect trace (`MEffect`);
* TypeScript optional fields (`string | undefined`, `string | null`)
  become `Option String`; JavaScript truthiness of an optional string
  (`if (error)`, `app?.instanceId`) is the function `truthyStr`, which is
  false for an absent value and for the empty string;
* the non-null assertions (`!!`) in `createListenerRegistration` are
  modelled by taking `meta.source` present with concrete `appId` and
  `instanceId` fields, the well-formedness the assertions assume;
* throwing `new Error(s)` is `Except.error s`; the `ResolveError`
  constants are their wire strings.
-/

/-- `AppIdentifier` from the FDC3 API: `{appId, instanceId?}`. -/
structure AppIdentifier where
  appId : String
  instanceId : Option String
deriving DecidableEq, Repr

/-- `IntentMetadata`: the name of an intent. -/
structure IntentMetadata where
  name : String
deriving DecidableEq, Repr

/-- `AppIntent`: one intent plus the ordered candidate list supporting it. -/
structure AppIntent where
  intent : IntentMetadata
  apps : List AppIdentifier
deriving DecidableEq, Repr

/-- A context value: its `type` tag plus its remaining content, kept
opaque as one field so that verbatim forwarding is observable. -/
structure ContextVal where
  type : String
  body : String
deriving DecidableEq, Repr

namespace ResolveError

def NoAppsFound : String := "NoAppsFound"

def TargetAppUnavailable : String := "TargetAppUnavailable"

def TargetInstanceUnavailable : String := "TargetInstanceUnavailable"

end ResolveError

/-- JavaScript truthiness of an optional string: absent (`undefined` /
`null`) and the empty string are falsy. -/
def truthyStr : Option String → Bool
  | none => false
  | some s => !(s == "")

/-- The `findIntentResponse` payload, flattening the success / error union:
`error` present models `FindIntentAgentErrorResponse`. -/
structure FindIntentResponse where
  error : Option String
  appIntent : AppIntent
deriving DecidableEq, Repr

/-- `DefaultIntentSupport.findIntent`, as a function of the gateway's
response: rethrow an explicit (truthy) error, reject an empty candidate
list with `NoAppsFound`, otherwise return the `(intent, apps)` pair. -/
def findIntent (result : FindIntentResponse) : Except String AppIntent :=
  let noError : Except String AppIntent :=
    if result.appIntent.apps.length == 0 then
      Except.error ResolveError.NoAppsFound
    else
      Except.ok { intent := result.appIntent.intent, apps := result.appIntent.apps }
  match result.error with
  | some e => if e == "" then noError else Except.error e
  | none => noError

/-- The `findIntentsByContextResponse` payload. -/
structure FindIntentsByContextResponse where
  appIntents : List AppIntent
deriving DecidableEq, Repr

/-- `DefaultIntentSupport.findIntentsByContext`: reject an empty
`appIntents` list with `NoAppsFound`, otherwise return it unchanged. -/
def findIntentsByContext (result : FindIntentsByContextResponse) :
    Except String (List AppIntent) :=
  if result.appIntents.length == 0 then
    Except.error ResolveError.NoAppsFound
  else
    Except.ok result.appIntents

/-- The three channel kinds of the FDC3 `Channel.type` union
(`'private'` is a Lean keyword, hence `priv`). -/
inductive ChannelType where
  | app
  | user
  | priv
deriving DecidableEq, Repr

/-- The channel reference inside a `raiseIntentResultResponse` payload. -/
structure ChannelRef where
  id : String
  ctype : ChannelType
  displayMetadata : Option String
deriving DecidableEq, Repr

/-- `payload.intentResult`: optional channel or context. -/
structure IntentResultPayload where
  channel : Option ChannelRef
  context : Option ContextVal
deriving DecidableEq, Repr

/-- An inbound message as seen by the result Correlator: its type tag,
its `meta.requestUuid` and its (optional) `payload.intentResult`; a
missing payload and a missing `intentResult` collapse to `none`, exactly
what the optional chaining `m.payload?.intentResult?` observes. -/
structure InResultMsg where
  type : String
  requestUuid : String
  intentResult : Option IntentResultPayload
deriving DecidableEq, Repr

/-- The value an intent-result future settles to: a shared channel
object (`DefaultChannel`), a private channel object
(`DefaultPrivateChannel`), a context value, or nothing. -/
inductive IntentResult where
  | channel (id : String) (t : ChannelType) (displayMetadata : Option String)
  | privateChannel (id : String)
  | contextResult (c : ContextVal)
  | absent
deriving DecidableEq, Repr

/-- `convertIntentResult`: channel reference construction, context
pass-through, or absent when neither field is present. -/
def convertIntentResult (m : InResultMsg) : IntentResult :=
  match m.intentResult with
  | some ir =>
    match ir.channel with
    | some c =>
      match c.ctype with
      | ChannelType.app => IntentResult.channel c.id ChannelType.app c.displayMetadata
      | ChannelType.user => IntentResult.channel c.id ChannelType.user c.displayMetadata
      | ChannelType.priv => IntentResult.privateChannel c.id
    | none =>
      match ir.context with
      | some ctx => IntentResult.contextResult ctx
      | none => IntentResult.absent
  | none => IntentResult.absent

/-- The predicate `createResultPromise` hands to `messaging.waitFor`:
type `raiseIntentResultResponse` and the originating request's uuid. -/
def resultMatcher (requestUuid : String) (m : InResultMsg) : Bool :=
  (m.type == "raiseIntentResultResponse") && (m.requestUuid == requestUuid)

/-- `createResultPromise`, as a function of the inbound stream `waitFor`
searches: first component is the value the future settles to, second the
list of `intentResolver.intentChosen` invocations it makes. On no
matching message (`waitFor` timed out) it settles to `absent` and calls
nothing; on a match it converts the payload and reports it once. -/
def createResultPromise (msgs : List InResultMsg) (requestUuid : String) :
    IntentResult × List IntentResult :=
  match msgs.find? (resultMatcher requestUuid) with
  | none => (IntentResult.absent, [])
  | some rp => (convertIntentResult rp, [convertIntentResult rp])

/-- Envelope metadata minted by `messaging.createMeta()`. -/
structure Meta where
  requestUuid : String
  timestamp : Nat
  source : AppIdentifier
deriving DecidableEq, Repr

/-- `payload.intentResolution` of a `raiseIntentResponse`. -/
structure ResolutionDetails where
  source : AppIdentifier
  intent : String
  version : String
deriving DecidableEq, Repr

/-- The `raiseIntentResponse` payload, flattening the success / error
union as for `findIntent`. -/
structure RaiseIntentResponse where
  error : Option String
  intentResolution : ResolutionDetails
deriving DecidableEq, Repr

/-- The gateway environment one `raiseSpecificIntent` run observes. -/
structure GatewayEnv where
  meta : Meta
  raiseResponse : RaiseIntentResponse
  inbound : List InResultMsg
deriving DecidableEq, Repr

/-- Messaging effects, recorded in the order the source performs them. -/
inductive MEffect where
  | createMeta
  | waitForResult (requestUuid : String)
  | exchangeRaise (intent : String) (context : ContextVal) (app : AppIdentifier)
      (requestUuid : String) (expectedResponseType : String)
deriving DecidableEq, Repr

/-- The data of the `DefaultIntentResolution` built on success. -/
structure IntentResolutionData where
  source : AppIdentifier
  intent : String
  version : String
  result : IntentResult
  intentChosenCalls : List IntentResult
deriving DecidableEq, Repr

/-- `raiseSpecificIntent`: mint metadata, arm the result Correlator
(`createResultPromise` runs its `waitFor` call synchronously when
invoked), then exchange the raise request; on a truthy error in the
acknowledgement, throw it, else wrap the resolution details and the
pending result. The second component is the messaging-effect trace in
source order. -/
def raiseSpecificIntent (env : GatewayEnv) (intent : String) (context : ContextVal)
    (app : AppIdentifier) : Except String IntentResolutionData × List MEffect :=
  let meta := env.meta
  let effects :=
    [MEffect.createMeta,
     MEffect.waitForResult meta.requestUuid,
     MEffect.exchangeRaise intent context app meta.requestUuid "raiseIntentResponse"]
  let rp := createResultPromise env.inbound meta.requestUuid
  let resolution := env.raiseResponse
  if truthyStr resolution.error then
    (Except.error (resolution.error.getD ""), effects)
  else
    (Except.ok
      { source := resolution.intentResolution.source,
        intent := resolution.intentResolution.intent,
        version := resolution.intentResolution.version,
        result := rp.1,
        intentChosenCalls := rp.2 }, effects)

/-- `matchAppId`: `appId` equal, and instance ids both absent or (loose-)
equal; `==` on `Option String` is JavaScript loose equality here, where
`null == undefined` holds. -/
def matchAppId (found req : AppIdentifier) : Bool :=
  (found.appId == req.appId) &&
    (((found.instanceId == none) && (req.instanceId == none))
      || (found.instanceId == req.instanceId))

/-- `filterApps`: keep the candidates matching `app`. -/
def filterApps (appIntent : AppIntent) (app : AppIdentifier) : AppIntent :=
  { apps := appIntent.apps.filter (fun a => matchAppId a app),
    intent := appIntent.intent }

/-- What `raiseIntent` decides to do after the lookup: fail, send the
raise request against a concrete identifier, or delegate the candidate
set to the intent resolver. -/
inductive RaiseDecision where
  | err (e : String)
  | raiseTo (app : AppIdentifier)
  | resolve (candidates : AppIntent)
deriving DecidableEq, Repr

/-- `raiseIntent`, as a function of the `findIntent` response and the
optional target app. With a target: filter, then the two zero-match
failures (instance first, both guarded by JS truthiness), else raise
against the originally supplied identifier. Without: `NoAppsFound` on
zero candidates, direct raise on one, resolver delegation otherwise. -/
def raiseIntent (findResponse : FindIntentResponse) (app : Option AppIdentifier) :
    RaiseDecision :=
  match findIntent findResponse with
  | Except.error e => RaiseDecision.err e
  | Except.ok matched =>
    match app with
    | some a =>
      let filtered := filterApps matched a
      if (filtered.apps.length == 0) && truthyStr a.instanceId then
        RaiseDecision.err ResolveError.TargetInstanceUnavailable
      else if (filtered.apps.length == 0) && !(a.appId == "") then
        RaiseDecision.err ResolveError.TargetAppUnavailable
      else
        RaiseDecision.raiseTo a
    | none =>
      match matched.apps with
      | [] => RaiseDecision.err ResolveError.NoAppsFound
      | [single] => RaiseDecision.raiseTo single
      | _ => RaiseDecision.resolve matched

/-- `meta.source` of a broadcast-router message, with the fields the
non-null assertions in `createListenerRegistration` require present. -/
structure MsgSource where
  appId : String
  instanceId : String
deriving DecidableEq, Repr

/-- One inbound `AgentRequestMessage` as the `BroadcastHandler` reads it:
the type tag, the envelope metadata, and the union of the payload fields
of the three request shapes (`channelId` always; `contextType` for the
listener requests; `context` for broadcasts). -/
structure AgentMsg where
  type : String
  source : MsgSource
  requestUuid : String
  timestamp : Nat
  channelId : String
  contextType : Option String
  context : ContextVal
deriving DecidableEq, Repr

/-- `ListenerRegistration`: the four-field record the handler stores. -/
structure ListenerRegistration where
  appId : String
  instanceId : String
  channelId : String
  contextType : Option String
deriving DecidableEq, Repr

/-- `matches` (a Lean keyword, hence `matchesReg`): structural equality of all four fields. -/
def matchesReg (lr1 lr2 : ListenerRegistration) : Bool :=
  (lr1.appId == lr2.appId) &&
    (lr1.instanceId == lr2.instanceId) &&
    (lr1.channelId == lr2.channelId) &&
    (lr1.contextType == lr2.contextType)

/-- `createListenerRegistration`: source identity plus the payload's
channel and context type. -/
def createListenerRegistration (msg : AgentMsg) : ListenerRegistration :=
  { appId := msg.source.appId,
    instanceId := msg.source.instanceId,
    channelId := msg.channelId,
    contextType := msg.contextType }

/-- A message posted by `handleBroadcast` through `sc.post`: the inbound
metadata plus a destination, the inbound type tag and the inbound
payload (`channelId` and `context`). -/
structure OutMsg where
  source : MsgSource
  destination : MsgSource
  requestUuid : String
  timestamp : Nat
  type : String
  channelId : String
  context : ContextVal
deriving DecidableEq, Repr

/-- `handleBroadcast`: filter the registrations on channel and (wildcard
or equal) context type, and post one forwarded message per match. -/
def handleBroadcast (regs : List ListenerRegistration) (msg : AgentMsg) : List OutMsg :=
  (regs.filter (fun r =>
      (r.channelId == msg.channelId) &&
        ((r.contextType == none) || (r.contextType == some msg.context.type)))).map
    (fun r =>
      { source := msg.source,
        destination := { appId := r.appId, instanceId := r.instanceId },
        requestUuid := msg.requestUuid,
        timestamp := msg.timestamp,
        type := msg.type,
        channelId := msg.channelId,
        context := msg.context })

/-- `handleOnUnsubscribe`: `findIndex` of the first `matches` hit, then
`splice` it out; no-op when the index is `-1`. -/
def handleOnUnsubscribe (regs : List ListenerRegistration) (msg : AgentMsg) :
    List ListenerRegistration :=
  let lr := createListenerRegistration msg
  match regs.findIdx? (fun e => matchesReg e lr) with
  | some fi => regs.eraseIdx fi
  | none => regs

/-- `handleOnAddContextListener`: unconditional `push`. -/
def handleOnAddContextListener (regs : List ListenerRegistration) (msg : AgentMsg) :
    List ListenerRegistration :=
  regs ++ [createListenerRegistration msg]

/-- `BroadcastHandler.accept`: the `switch` over the message type, with
the namespaced and the temporary legacy bare spellings routed to the
same handlers; an unrecognized type falls through. Returns the new
registration list and the posted messages. -/
def accept (regs : List ListenerRegistration) (msg : AgentMsg) :
    List ListenerRegistration × List OutMsg :=
  match msg.type with
  | "PrivateChannel.broadcast" => (regs, handleBroadcast regs msg)
  | "PrivateChannel.onAddContextListener" => (handleOnAddContextListener regs msg, [])
  | "PrivateChannel.onUnsubscribe" => (handleOnUnsubscribe regs msg, [])
  | "broadcast" => (regs, handleBroadcast regs msg)
  | "onAddContextListener" => (handleOnAddContextListener regs msg, [])
  | "onUnsubscribe" => (handleOnUnsubscribe regs msg, [])
  | _ => (regs, [])

/-! ## Theorems -/

/-- C7. For every call `findIntent(intentName, context, resultType)`:
if the response carries an explicit error field, the call fails with
`ServerError` carrying that message; otherwise, if the response's
candidate list is empty, it fails with `NoAppsFound`; otherwise it
returns the response's `(intent, apps)` pair. The hypothesis excludes
the degenerate empty error string: the wire type constrains the error
field to non-empty enum constants, and `if (error)` tests truthiness. -/
theorem findIntent_response_spec (r : FindIntentResponse) (hwf : r.error ≠ some "") :
    findIntent r =
      match r.error with
      | some e => Except.error e
      | none =>
        if r.appIntent.apps = [] then Except.error ResolveError.NoAppsFound
        else Except.ok { intent := r.appIntent.intent, apps := r.appIntent.apps } := by
  unfold findIntent
  cases h : r.error with
  | none =>
    simp only []
    by_cases ha : r.appIntent.apps = []
    · simp [ha]
    · simp [ha, List.length_eq_zero]
  | some e =>
    have he : e ≠ "" := fun hc => hwf (hc ▸ h)
    simp [he]

/-- Witness for C7 at a concrete error response. -/
theorem findIntent_response_spec_witness :
    findIntent { error := some "IntentDeliveryFailed",
                 appIntent := { intent := { name := "ViewChart" }, apps := [] } } =
      Except.error "IntentDeliveryFailed" := by
  have h := findIntent_response_spec
    { error := some "IntentDeliveryFailed",
      appIntent := { intent := { name := "ViewChart" }, apps := [] } }
    (by decide)
  simpa using h

/-- C2 counterexample. `findIntentsByContext` checks only the outer
`appIntents` list for emptiness: a response whose single `AppIntent` has
an empty candidate list is returned as a success, so it is not the case
that every `AppIntent` inside a successful `findIntentsByContext` result
has a non-empty candidate list. -/
theorem findIntentsByContext_empty_inner_cex :
    findIntentsByContext
        { appIntents := [{ intent := { name := "ViewChart" }, apps := [] }] } =
      Except.ok [{ intent := { name := "ViewChart" }, apps := [] }] ∧
    ¬ (∀ ais, findIntentsByContext
          { appIntents := [{ intent := { name := "ViewChart" }, apps := [] }] } =
            Except.ok ais → ∀ ai ∈ ais, ai.apps ≠ []) := by
  constructor
  · rfl
  · intro hall
    exact hall [{ intent := { name := "ViewChart" }, apps := [] }] rfl
      { intent := { name := "ViewChart" }, apps := [] } (by simp) rfl

/-- C2 amended. Every successful `findIntent` result has a non-empty
candidate list, and an error-free response with an empty candidate list
fails with `NoAppsFound`; a successful `findIntentsByContext` result is
a non-empty list of `AppIntent`s, and an empty `appIntents` list fails
with `NoAppsFound` — but `findIntentsByContext` does not inspect the
candidate lists inside the returned `AppIntent`s. -/
theorem findIntent_success_nonempty (r : FindIntentResponse)
    (r2 : FindIntentsByContextResponse) :
    (∀ ai, findIntent r = Except.ok ai → ai.apps ≠ []) ∧
    (r.error = none → r.appIntent.apps = [] →
      findIntent r = Except.error ResolveError.NoAppsFound) ∧
    (∀ ais, findIntentsByContext r2 = Except.ok ais → ais ≠ []) ∧
    (r2.appIntents = [] →
      findIntentsByContext r2 = Except.error ResolveError.NoAppsFound) := by
  refine ⟨?_, ?_, ?_, ?_⟩
  · intro ai h
    by_cases ha : r.appIntent.apps = []
    · cases he : r.error with
      | none => simp [findIntent, he, ha] at h
      | some e =>
        by_cases hee : e = ""
        · simp [findIntent, he, hee, ha] at h
        · simp [findIntent, he, hee] at h
    · cases he : r.error with
      | none =>
        simp [findIntent, he, ha, List.length_eq_zero] at h
        subst h
        exact ha
      | some e =>
        by_cases hee : e = ""
        · simp [findIntent, he, hee, ha, List.length_eq_zero] at h
          subst h
          exact ha
        · simp [findIntent, he, hee] at h
  · intro he ha
    simp [findIntent, he, ha]
  · intro ais h
    by_cases ha : r2.appIntents = []
    · simp [findIntentsByContext, ha] at h
    · simp [findIntentsByContext, ha, List.length_eq_zero] at h
      subst h
      exact ha
  · intro ha
    simp [findIntentsByContext, ha]

/-- Witness for the amended C2 at concrete responses. -/
theorem findIntent_success_nonempty_witness :
    ([{ appId := "A", instanceId := none }] : List AppIdentifier) ≠ [] ∧
    findIntent { error := none,
                 appIntent := { intent := { name := "ViewChart" }, apps := [] } } =
      Except.error ResolveError.NoAppsFound ∧
    ([{ intent := { name := "ViewChart" },
        apps := [{ appId := "A", instanceId := none }] }] : List AppIntent) ≠ [] ∧
    findIntentsByContext { appIntents := [] } =
      Except.error ResolveError.NoAppsFound := by
  have h1 := findIntent_success_nonempty
    { error := none,
      appIntent := { intent := { name := "ViewChart" },
                     apps := [{ appId := "A", instanceId := none }] } }
    { appIntents := [{ intent := { name := "ViewChart" },
                       apps := [{ appId := "A", instanceId := none }] }] }
  have h2 := findIntent_success_nonempty
    { error := none,
      appIntent := { intent := { name := "ViewChart" }, apps := [] } }
    { appIntents := [] }
  exact ⟨h1.1 { intent := { name := "ViewChart" },
                apps := [{ appId := "A", instanceId := none }] } rfl,
         h2.2.1 rfl rfl,
         h1.2.2.1 [{ intent := { name := "ViewChart" },
                     apps := [{ appId := "A", instanceId := none }] }] rfl,
         h2.2.2.2 rfl⟩

/-- C1. With `targetApp` supplied and the lookup succeeded: the
candidate list is filtered by `matchAppId`; an empty filtered list fails
with `TargetInstanceUnavailable` when `targetApp.instanceId` is set and
with `TargetAppUnavailable` when only `appId` is set; a non-empty
filtered list raises against the originally supplied `targetApp`
identifier. The two well-formedness hypotheses exclude degenerate empty
strings, which JavaScript truthiness (`app?.instanceId`, `app?.appId`)
would treat as unset. -/
theorem raiseIntent_targetApp_spec (r : FindIntentResponse) (matched : AppIntent)
    (a : AppIdentifier) (hok : findIntent r = Except.ok matched)
    (hwfA : a.appId ≠ "") (hwfI : a.instanceId ≠ some "") :
    (matched.apps.filter (fun c => matchAppId c a) = [] → a.instanceId.isSome →
      raiseIntent r (some a) = RaiseDecision.err ResolveError.TargetInstanceUnavailable) ∧
    (matched.apps.filter (fun c => matchAppId c a) = [] → a.instanceId = none →
      raiseIntent r (some a) = RaiseDecision.err ResolveError.TargetAppUnavailable) ∧
    (matched.apps.filter (fun c => matchAppId c a) ≠ [] →
      raiseIntent r (some a) = RaiseDecision.raiseTo a) := by
  refine ⟨?_, ?_, ?_⟩
  · intro hf hinst
    obtain ⟨s, hs⟩ := Option.isSome_iff_exists.mp hinst
    have hsne : s ≠ "" := fun hc => hwfI (by rw [hs, hc])
    simp [raiseIntent, hok, filterApps, hf, truthyStr, hs, hsne]
  · intro hf hnone
    simp [raiseIntent, hok, filterApps, hf, truthyStr, hnone, hwfA]
  · intro hf
    simp [raiseIntent, hok, filterApps, List.length_eq_zero, hf]

/-- Witness for C1: Scenario C — `targetApp = {appId: "A", instanceId:
"missing"}` against candidates `[{appId: "A", instanceId: "real"}]`
fails with `TargetInstanceUnavailable`. -/
theorem raiseIntent_targetApp_spec_witness :
    raiseIntent { error := none,
                  appIntent := { intent := { name := "ViewChart" },
                                 apps := [{ appId := "A", instanceId := some "real" }] } }
        (some { appId := "A", instanceId := some "missing" }) =
      RaiseDecision.err ResolveError.TargetInstanceUnavailable := by
  have h := raiseIntent_targetApp_spec
    { error := none,
      appIntent := { intent := { name := "ViewChart" },
                     apps := [{ appId := "A", instanceId := some "real" }] } }
    { intent := { name := "ViewChart" },
      apps := [{ appId := "A", instanceId := some "real" }] }
    { appId := "A", instanceId := some "missing" }
    rfl (by decide) (by decide)
  exact h.1 (by decide) (by decide)

/-- C3. In every `raiseSpecificIntent` execution, the effect trace
contains the Correlator's `waitFor` subscription for the request's
correlation id strictly before the `exchange` that transmits the raise
request: calling `createResultPromise` runs its `waitFor` synchronously,
on the line before the `exchange`. -/
theorem raiseSpecificIntent_arms_before_send (env : GatewayEnv) (intent : String)
    (context : ContextVal) (app : AppIdentifier) :
    ∃ i j, i < j ∧
      ((raiseSpecificIntent env intent context app).2).get? i =
        some (MEffect.waitForResult env.meta.requestUuid) ∧
      ((raiseSpecificIntent env intent context app).2).get? j =
        some (MEffect.exchangeRaise intent context app env.meta.requestUuid
          "raiseIntentResponse") := by
  refine ⟨1, 2, by omega, ?_, ?_⟩ <;>
    cases h : truthyStr env.raiseResponse.error <;>
      simp [raiseSpecificIntent, h]

/-- C5. For the result Correlator of a raised intent: when the inbound
stream holds a message matching the request id, its payload is converted
(shared channel for kind app or user, private channel reference, context
pass-through, absent when neither field is present) and reported to
`intentResolver.intentChosen` exactly once; when no matching message
exists, the future settles to `absent` and `intentChosen` is never
invoked (`createResultPromise` has no failure outcome at all: the
deferred result never rejects). -/
theorem createResultPromise_spec (msgs : List InResultMsg) (u : String) :
    (∀ m, msgs.find? (resultMatcher u) = some m →
      createResultPromise msgs u = (convertIntentResult m, [convertIntentResult m])) ∧
    (msgs.find? (resultMatcher u) = none →
      createResultPromise msgs u = (IntentResult.absent, [])) ∧
    (∀ m ir c, m.intentResult = some ir → ir.channel = some c →
      convertIntentResult m =
        match c.ctype with
        | ChannelType.app => IntentResult.channel c.id ChannelType.app c.displayMetadata
        | ChannelType.user => IntentResult.channel c.id ChannelType.user c.displayMetadata
        | ChannelType.priv => IntentResult.privateChannel c.id) ∧
    (∀ m ir ctx, m.intentResult = some ir → ir.channel = none → ir.context = some ctx →
      convertIntentResult m = IntentResult.contextResult ctx) ∧
    (∀ m ir, m.intentResult = some ir → ir.channel = none → ir.context = none →
      convertIntentResult m = IntentResult.absent) := by
  refine ⟨?_, ?_, ?_, ?_, ?_⟩
  · intro m hm
    simp [createResultPromise, hm]
  · intro hm
    simp [createResultPromise, hm]
  · intro m ir c hm hc
    simp [convertIntentResult, hm, hc]
  · intro m ir ctx hm hc hctx
    simp [convertIntentResult, hm, hc, hctx]
  · intro m ir hm hc hctx
    simp [convertIntentResult, hm, hc, hctx]

/-- Witness for C5: a matching context-carrying result message is
converted and reported once; an empty stream settles to absent with no
report. -/
theorem createResultPromise_spec_witness :
    createResultPromise
        [{ type := "raiseIntentResultResponse", requestUuid := "u1",
           intentResult := some { channel := none,
                                  context := some { type := "fdc3.instrument", body := "AAPL" } } }]
        "u1" =
      (IntentResult.contextResult { type := "fdc3.instrument", body := "AAPL" },
       [IntentResult.contextResult { type := "fdc3.instrument", body := "AAPL" }]) ∧
    createResultPromise [] "u1" = (IntentResult.absent, []) := by
  have h1 := createResultPromise_spec
    [{ type := "raiseIntentResultResponse", requestUuid := "u1",
       intentResult := some { channel := none,
                              context := some { type := "fdc3.instrument", body := "AAPL" } } }]
    "u1"
  have h2 := createResultPromise_spec [] "u1"
  constructor
  · rw [h1.1 { type := "raiseIntentResultResponse", requestUuid := "u1",
               intentResult := some { channel := none,
                                      context := some { type := "fdc3.instrument", body := "AAPL" } } }
          rfl,
        h1.2.2.2.1 { type := "raiseIntentResultResponse", requestUuid := "u1",
                     intentResult := some { channel := none,
                                            context := some { type := "fdc3.instrument", body := "AAPL" } } }
          { channel := none, context := some { type := "fdc3.instrument", body := "AAPL" } }
          { type := "fdc3.instrument", body := "AAPL" } rfl rfl rfl]
  · exact h2.2.1 rfl

/-- The selection rule of the broadcast fan-out, as the specification
states it: same channel, and wildcard or equal context type. -/
def broadcastTargets (r : ListenerRegistration) (channelId contextType : String) : Prop :=
  r.channelId = channelId ∧ (r.contextType = none ∨ r.contextType = some contextType)

instance (r : ListenerRegistration) (channelId contextType : String) :
    Decidable (broadcastTargets r channelId contextType) := by
  unfold broadcastTargets
  infer_instance

/-- C4. `handleBroadcast` forwards one message per registration whose
channel equals the broadcast's and whose context type is absent or equal
to the context's type — with multiplicity, duplicates included, in
registration order — and each forwarded message keeps the inbound type,
channel and context payload, takes its destination from the
registration, and copies `source`, the correlation id (`requestUuid`)
and `timestamp` verbatim from the inbound broadcast. -/
theorem handleBroadcast_spec (regs : List ListenerRegistration) (msg : AgentMsg) :
    handleBroadcast regs msg =
      (regs.filter (fun r => decide (broadcastTargets r msg.channelId msg.context.type))).map
        (fun r =>
          { source := msg.source,
            destination := { appId := r.appId, instanceId := r.instanceId },
            requestUuid := msg.requestUuid,
            timestamp := msg.timestamp,
            type := msg.type,
            channelId := msg.channelId,
            context := msg.context }) := by
  unfold handleBroadcast
  congr 1
  apply List.filter_congr
  intro r _
  by_cases h1 : r.channelId = msg.channelId <;>
    by_cases h2 : r.contextType = none <;>
      by_cases h3 : r.contextType = some msg.context.type <;>
        simp [broadcastTargets, h1, h2, h3]

/-- `findIndex` followed by `splice` of the found index is exactly
first-match removal, `List.eraseP`. -/
theorem eraseIdx_findIdx_eq_eraseP {α : Type} (p : α → Bool) (l : List α) :
    (match l.findIdx? p with
     | some fi => l.eraseIdx fi
     | none => l) = l.eraseP p := by
  induction l with
  | nil => simp
  | cons a l ih =>
    by_cases h : p a
    · simp [List.findIdx?_cons, h]
    · rw [List.eraseP_cons_of_neg h, List.findIdx?_cons, if_neg h, List.findIdx?_succ]
      cases hfi : l.findIdx? p with
      | none =>
        have hall := List.findIdx?_eq_none_iff.mp hfi
        simp only [Option.map_none']
        rw [List.eraseP_of_forall_not (fun x hx => by simp [hall x hx])]
      | some i =>
        simp only [Option.map_some']
        have h2 := ih
        rw [hfi] at h2
        simp
        exact h2

/-- `handleOnUnsubscribe` is first-match removal of the request's
registration. -/
theorem handleOnUnsubscribe_eq_eraseP (regs : List ListenerRegistration) (msg : AgentMsg) :
    handleOnUnsubscribe regs msg =
      regs.eraseP (fun e => matchesReg e (createListenerRegistration msg)) := by
  unfold handleOnUnsubscribe
  exact eraseIdx_findIdx_eq_eraseP _ regs

/-- `matchesReg` — structural identity in all four fields — is equality
of registrations. -/
theorem matchesReg_iff_eq (e lr : ListenerRegistration) :
    matchesReg e lr = true ↔ e = lr := by
  cases e with
  | mk a i c t =>
    cases lr with
    | mk a2 i2 c2 t2 =>
      simp [matchesReg, and_assoc]

/-- C6. `handleOnUnsubscribe` removes at most one registration: if no
registration is structurally identical (all four fields, `matchesReg`,
which is exactly equality of the four-field record) to the request's,
the list is unchanged; otherwise exactly the first such registration, in
insertion order, is removed and everything else — later duplicates
included — stays. Since only a registration equal to the request's is
ever removed, a wildcard unsubscribe (`contextType` absent) can only
remove a wildcard registration. -/
theorem handleOnUnsubscribe_spec (regs : List ListenerRegistration) (msg : AgentMsg) :
    (∀ e, matchesReg e (createListenerRegistration msg) = true ↔
        e = createListenerRegistration msg) ∧
    ((createListenerRegistration msg ∉ regs ∧ handleOnUnsubscribe regs msg = regs) ∨
      (∃ l₁ l₂, regs = l₁ ++ createListenerRegistration msg :: l₂ ∧
        createListenerRegistration msg ∉ l₁ ∧
        handleOnUnsubscribe regs msg = l₁ ++ l₂)) := by
  refine ⟨fun e => matchesReg_iff_eq e (createListenerRegistration msg), ?_⟩
  by_cases hin : createListenerRegistration msg ∈ regs
  · right
    obtain ⟨a, l₁, l₂, hl₁, hpa, hl, he⟩ :=
      @List.exists_of_eraseP _ (fun e => matchesReg e (createListenerRegistration msg))
        regs (createListenerRegistration msg) hin ((matchesReg_iff_eq _ _).mpr rfl)
    have ha : a = createListenerRegistration msg := (matchesReg_iff_eq _ _).mp hpa
    subst ha
    refine ⟨l₁, l₂, hl, ?_, ?_⟩
    · intro hc
      exact hl₁ _ hc ((matchesReg_iff_eq _ _).mpr rfl)
    · rw [handleOnUnsubscribe_eq_eraseP]
      exact he
  · left
    refine ⟨hin, ?_⟩
    rw [handleOnUnsubscribe_eq_eraseP]
    apply List.eraseP_of_forall_not
    intro a ha hpa
    exact hin ((matchesReg_iff_eq _ _).mp hpa ▸ ha)

/-- C8 counterexample. The two spellings route to the same handler, but
`handleBroadcast` copies the inbound `type` verbatim into each forwarded
message, so dispatching the same broadcast under the namespaced and the
legacy spelling does not produce the same posted messages: their `type`
fields differ. -/
theorem accept_dual_spelling_cex :
    accept [{ appId := "X", instanceId := "i1", channelId := "C1", contextType := none }]
        { type := "PrivateChannel.broadcast", source := { appId := "S", instanceId := "s1" },
          requestUuid := "u1", timestamp := 7, channelId := "C1", contextType := none,
          context := { type := "fdc3.instrument", body := "AAPL" } } ≠
      accept [{ appId := "X", instanceId := "i1", channelId := "C1", contextType := none }]
        { type := "broadcast", source := { appId := "S", instanceId := "s1" },
          requestUuid := "u1", timestamp := 7, channelId := "C1", contextType := none,
          context := { type := "fdc3.instrument", body := "AAPL" } } := by
  decide

/-- C8 amended. Each namespaced spelling routes to the identical handler
as its legacy bare spelling: for `onAddContextListener` and
`onUnsubscribe` the results coincide exactly; for `broadcast` the
registration state coincides and the posted messages coincide up to the
`type` field, which each forwarded message copies verbatim from the
inbound spelling. -/
theorem accept_dual_spelling_amended (regs : List ListenerRegistration) (msg : AgentMsg) :
    accept regs { msg with type := "PrivateChannel.onAddContextListener" } =
      accept regs { msg with type := "onAddContextListener" } ∧
    accept regs { msg with type := "PrivateChannel.onUnsubscribe" } =
      accept regs { msg with type := "onUnsubscribe" } ∧
    (accept regs { msg with type := "PrivateChannel.broadcast" }).1 =
      (accept regs { msg with type := "broadcast" }).1 ∧
    (accept regs { msg with type := "PrivateChannel.broadcast" }).2 =
      ((accept regs { msg with type := "broadcast" }).2).map
        (fun o => { o with type := "PrivateChannel.broadcast" }) := by
  refine ⟨rfl, rfl, rfl, ?_⟩
  show handleBroadcast regs { msg with type := "PrivateChannel.broadcast" } =
    (handleBroadcast regs { msg with type := "broadcast" }).map
      (fun o => { o with type := "PrivateChannel.broadcast" })
  simp [handleBroadcast, List.map_map, Function.comp]

/-- C9. An inbound message whose type is none of the six recognized
spellings falls through the `switch`: `accept` returns normally, leaves
the registration list unchanged and posts nothing. -/
theorem accept_unknown_type_noop (regs : List ListenerRegistration) (msg : AgentMsg)
    (h1 : msg.type ≠ "PrivateChannel.broadcast")
    (h2 : msg.type ≠ "PrivateChannel.onAddContextListener")
    (h3 : msg.type ≠ "PrivateChannel.onUnsubscribe")
    (h4 : msg.type ≠ "broadcast")
    (h5 : msg.type ≠ "onAddContextListener")
    (h6 : msg.type ≠ "onUnsubscribe") :
    accept regs msg = (regs, []) := by
  unfold accept
  split <;> simp_all

/-- Witness for C9: a `findIntentRequest` reaching the broadcast handler
is ignored. -/
theorem accept_unknown_type_noop_witness :
    accept [{ appId := "X", instanceId := "i1", channelId := "C1", contextType := none }]
        { type := "findIntentRequest", source := { appId := "S", instanceId := "s1" },
          requestUuid := "u1", timestamp := 7, channelId := "C1", contextType := none,
          context := { type := "fdc3.instrument", body := "AAPL" } } =
      ([{ appId := "X", instanceId := "i1", channelId := "C1", contextType := none }], []) := by
  exact accept_unknown_type_noop _ _ (by decide) (by decide) (by decide) (by decide)
    (by decide) (by decide)

/-- C10. Dispatching a broadcast message never changes the registration
list, and contrapositively any dispatch that does change it was an
add-context-listener or unsubscribe request (under either spelling). -/
theorem accept_state_frame (regs : List ListenerRegistration) (msg : AgentMsg) :
    ((msg.type = "PrivateChannel.broadcast" ∨ msg.type = "broadcast") →
      (accept regs msg).1 = regs) ∧
    ((accept regs msg).1 ≠ regs →
      msg.type = "PrivateChannel.onAddContextListener" ∨
      msg.type = "onAddContextListener" ∨
      msg.type = "PrivateChannel.onUnsubscribe" ∨
      msg.type = "onUnsubscribe") := by
  constructor
  · rintro (h | h) <;> simp [accept, h]
  · intro hne
    unfold accept at hne
    split at hne <;> simp_all

/-- Witness for C10: a matching broadcast posts a message yet leaves the
single registration in place. -/
theorem accept_state_frame_witness :
    (accept [{ appId := "X", instanceId := "i1", channelId := "C1", contextType := none }]
        { type := "broadcast", source := { appId := "S", instanceId := "s1" },
          requestUuid := "u1", timestamp := 7, channelId := "C1", contextType := none,
          context := { type := "fdc3.instrument", body := "AAPL" } }).1 =
      [{ appId := "X", instanceId := "i1", channelId := "C1", contextType := none }] := by
  exact (accept_state_frame _ _).1 (Or.inr rfl)

/-- Witness for C3 at a concrete gateway environment. -/
theorem raiseSpecificIntent_arms_before_send_witness :
    ∃ i j, i < j ∧
      ((raiseSpecificIntent
          { meta := { requestUuid := "u1", timestamp := 7,
                      source := { appId := "S", instanceId := none } },
            raiseResponse :=
              { error := none,
                intentResolution := { source := { appId := "B", instanceId := none },
                                      intent := "ViewChart", version := "2.0" } },
            inbound := [] }
          "ViewChart" { type := "fdc3.instrument", body := "AAPL" }
          { appId := "B", instanceId := none }).2).get? i =
        some (MEffect.waitForResult "u1") ∧
      ((raiseSpecificIntent
          { meta := { requestUuid := "u1", timestamp := 7,
                      source := { appId := "S", instanceId := none } },
            raiseResponse :=
              { error := none,
                intentResolution := { source := { appId := "B", instanceId := none },
                                      intent := "ViewChart", version := "2.0" } },
            inbound := [] }
          "ViewChart" { type := "fdc3.instrument", body := "AAPL" }
          { appId := "B", instanceId := none }).2).get? j =
        some (MEffect.exchangeRaise "ViewChart" { type := "fdc3.instrument", body := "AAPL" }
          { appId := "B", instanceId := none } "u1" "raiseIntentResponse") :=
  raiseSpecificIntent_arms_before_send
    { meta := { requestUuid := "u1", timestamp := 7,
                source := { appId := "S", instanceId := none } },
      raiseResponse :=
        { error := none,
          intentResolution := { source := { appId := "B", instanceId := none },
                                intent := "ViewChart", version := "2.0" } },
      inbound := [] }
    "ViewChart" { type := "fdc3.instrument", body := "AAPL" }
    { appId := "B", instanceId := none }

/-- Witness for C4: Scenario A — wildcard and `fdc3.instrument`
registrations for the same destination both receive an instrument
broadcast, so the destination gets it twice. -/
theorem handleBroadcast_spec_witness :
    handleBroadcast
        [{ appId := "X", instanceId := "i1", channelId := "C1", contextType := none },
         { appId := "X", instanceId := "i1", channelId := "C1",
           contextType := some "fdc3.instrument" }]
        { type := "broadcast", source := { appId := "S", instanceId := "s1" },
          requestUuid := "u1", timestamp := 7, channelId := "C1", contextType := none,
          context := { type := "fdc3.instrument", body := "AAPL" } } =
      [{ source := { appId := "S", instanceId := "s1" },
         destination := { appId := "X", instanceId := "i1" },
         requestUuid := "u1", timestamp := 7, type := "broadcast",
         channelId := "C1", context := { type := "fdc3.instrument", body := "AAPL" } },
       { source := { appId := "S", instanceId := "s1" },
         destination := { appId := "X", instanceId := "i1" },
         requestUuid := "u1", timestamp := 7, type := "broadcast",
         channelId := "C1", context := { type := "fdc3.instrument", body := "AAPL" } }] := by
  rw [handleBroadcast_spec]
  rfl

/-- Witness for C6: with the same registration present twice, an
unsubscribe removes exactly the first copy. -/
theorem handleOnUnsubscribe_spec_witness :
    handleOnUnsubscribe
        [{ appId := "X", instanceId := "i1", channelId := "C1", contextType := none },
         { appId := "X", instanceId := "i1", channelId := "C1", contextType := none }]
        { type := "onUnsubscribe", source := { appId := "X", instanceId := "i1" },
          requestUuid := "u2", timestamp := 9, channelId := "C1", contextType := none,
          context := { type := "", body := "" } } =
      [{ appId := "X", instanceId := "i1", channelId := "C1", contextType := none }] := by
  have h := handleOnUnsubscribe_spec
    [{ appId := "X", instanceId := "i1", channelId := "C1", contextType := none },
     { appId := "X", instanceId := "i1", channelId := "C1", contextType := none }]
    { type := "onUnsubscribe", source := { appId := "X", instanceId := "i1" },
      requestUuid := "u2", timestamp := 9, channelId := "C1", contextType := none,
      context := { type := "", body := "" } }
  rcases h.2 with ⟨hnin, _⟩ | ⟨l₁, l₂, hl, hnin, he⟩
  · exact absurd (by decide) hnin
  · rw [he]
    have hl₁ : l₁ = [] := by
      cases l₁ with
      | nil => rfl
      | cons x l₁ =>
        have hx := (List.cons.inj hl).1
        have hmem : createListenerRegistration
            { type := "onUnsubscribe", source := { appId := "X", instanceId := "i1" },
              requestUuid := "u2", timestamp := 9, channelId := "C1", contextType := none,
              context := { type := "", body := "" } } ∈ x :: l₁ := by
          rw [← hx]
          exact List.mem_cons_self _ _
        exact absurd hmem hnin
    subst hl₁
    simp only [List.nil_append]
    simp at hl
    exact hl.2.symm
